import Mathlib

/-
Verification of the WebMind sequential retrieval-and-sufficiency loop.

Shallow embedding of the core from `agent.py` (`parse_llm_sufficiency_response`,
`update_status`, `run_search_session`), together with the configuration it
reads from `config.py` (`CHAT_MODEL`, `MAX_LLM_CONTEXT_LENGTH`) and the
prompt construction from `prompts.py` (`SUFFICIENCY_CHECK_PROMPT_TEMPLATE`).

Python strings are modelled code-point-wise as `List Char` (wrapped in
`String`); Python's `str.lower` is modelled on the ASCII range, and
`str.strip` with the ASCII whitespace set.  The two external collaborators
(`scrape_single_url`, `query_chat_model`) and the status sink
(`status_callback` / `status_placeholder.info`) are oracle functions in an
environment `Env`; an exception raised by a collaborator is an
`Except.error` carrying the exception text, and the status sink is modelled
by the set of messages on which it raises.
-/

namespace WebMind

/-! ## Python string primitives -/

/-- ASCII whitespace, the characters removed by Python's `str.strip()`
    (restricted to the ASCII range). -/
def isPySpace (c : Char) : Bool :=
  c = ' ' || c = '\t' || c = '\n' || c = '\r' || c = '\x0b' || c = '\x0c'

/-- Python's `str.lower` on a single character, restricted to ASCII. -/
def pyLowerChar (c : Char) : Char :=
  if 'A' ≤ c ∧ c ≤ 'Z' then Char.ofNat (c.toNat + 32) else c

/-- Python's `str.lower`, code-point-wise. -/
def pyLowerL (l : List Char) : List Char := l.map pyLowerChar

/-- Python's `str.strip()`: drop leading and trailing whitespace. -/
def pyStripL (l : List Char) : List Char :=
  ((l.dropWhile isPySpace).reverse.dropWhile isPySpace).reverse

/-- Python's `str.strip()` on `String`. -/
def pyStrip (s : String) : String := String.mk (pyStripL s.toList)

/-- Python's `len` on a string (number of code points). -/
def pyLen (s : String) : Nat := s.toList.length

/-- Python's `s[:n]` for a nonnegative bound (first `n` code points). -/
def pyTake (s : String) (n : Nat) : String := String.mk (s.toList.take n)

/-- Whether `needle` occurs at the very start of `l`
    (the prefix test underlying Python's `str.find`). -/
def isPre (needle l : List Char) : Bool :=
  match needle, l with
  | [], _ => true
  | _ :: _, [] => false
  | a :: n, b :: t => a == b && isPre n t

/-- Python's `str.find`: index of the first occurrence of `needle` in the
    haystack, `none` for Python's `-1`. -/
def strFind (needle : List Char) : List Char → Option Nat
  | [] => if isPre needle [] then some 0 else none
  | c :: t =>
    if isPre needle (c :: t) then some 0
    else (strFind needle t).map (fun i => i + 1)

/-- Python truthiness of an `Optional[str]`: `None` and `""` are falsy. -/
def pyTruthyOptStr : Option String → Bool
  | none => false
  | some s => s != ""

/-! ## config.py -/

/-- `config.py`: `CHAT_MODEL = os.getenv("CHAT_MODEL", "gemma3:4b")`,
    at its default value. -/
def CHAT_MODEL : String := "gemma3:4b"

/-- `config.py`: the per-model context-length table
    `MAX_LLM_CONTEXT_LENGTH = {"gemma3:4b": 100000}`. -/
def MAX_LLM_CONTEXT_LENGTH : List (String × Nat) := [("gemma3:4b", 100000)]

/-- Attribute names found on a Python `dict` instance (its methods).
    None of them is bound to an integer value. -/
def dictAttrNames : List String :=
  ["clear", "copy", "fromkeys", "get", "items", "keys", "pop", "popitem",
   "setdefault", "update", "values"]

/-- Python's `getattr(d, name, default)` applied to a `dict` `d` with an
    integer `default`: attribute lookup on a dict finds methods, never the
    dict's keys, so the result is `some default` whenever `name` is not a
    dict attribute, and `none` (a non-integer method object) otherwise. -/
def getattrDictNat (name : String) (dflt : Nat) : Option Nat :=
  if name ∈ dictAttrNames then none else some dflt

/-- The intended table lookup, `MAX_LLM_CONTEXT_LENGTH.get(model)` as used
    in `config.py`'s own example usage block. -/
def dictGet (tbl : List (String × Nat)) (key : String) : Option Nat :=
  (tbl.find? (fun p => p.fst == key)).map (fun p => p.snd)

/-! ## prompts.py -/

/-- `SUFFICIENCY_CHECK_PROMPT_TEMPLATE.format(query=..., url=..., scraped_text=...)`
    from `prompts.py`. -/
def SUFFICIENCY_PROMPT_fmt (query url scraped_text : String) : String :=
  "\nOriginal User Query: \"" ++ query ++ "\"\n\nText Scraped from: " ++ url ++
  "\n--- START SCRAPED TEXT ---\n" ++ scraped_text ++
  "\n--- END SCRAPED TEXT ---\n\nInstruction: Based *only* on the \x27SCRAPED TEXT\x27 above, determine if you can answer the \x27Original User Query\x27.\n\n- If the scraped text directly answers the query, respond with \"Final Answer:\" followed by your answer.\n- If the scraped text is insufficient or irrelevant, respond *only* with: \"Insufficient context\"\n\nImportant:\n- Use only information from the scraped text, not prior knowledge.\n- Do not infer information not explicitly stated in the text.\n- If the query asks for specific details missing from the text, it is insufficient.\n\nExample 1:\nQuery: \"What is the capital of France?\" \nText: \"France is a country in Europe known for its cuisine and landmarks like the Eiffel Tower.\"\nResponse: \"Insufficient context\"\n\nExample 2:\nQuery: \"When was the iPhone 15 Pro Max released?\" \nText: \"The iPhone 7 was released in 2016 with no headphone jack.\"\nResponse: \"Insufficient context\"\n"

/-! ## agent.py: the response parser -/

/-- The marker `"final answer:"` searched for by the parser. -/
def final_answer_marker : List Char := "final answer:".toList

/-- `agent.py` lines 19-54, `parse_llm_sufficiency_response`:
    lower-case and strip a copy, compare it with `"insufficient context"`,
    else find `"final answer:"` in the stripped lower-cased copy and take
    everything after that position in the original-cased, unstripped text,
    stripped; return the answer only if non-empty. -/
def parse_llm_sufficiency_response (response : String) : Option String × Bool :=
  let r := response.toList
  let response_lower := pyStripL (pyLowerL r)
  if response_lower = "insufficient context".toList then (none, false)
  else
    match strFind final_answer_marker response_lower with
    | none => (none, false)
    | some marker_pos =>
      let final_answer_text := pyStripL (r.drop (marker_pos + final_answer_marker.length))
      if final_answer_text = [] then (none, false)
      else (some (String.mk final_answer_text), true)

/-! ## agent.py: the search session -/

/-- Oracles for the session's collaborators: the scraper
    (`scrape_single_url`, which may raise, return `None`, or return text),
    the judge (`query_chat_model`, which may raise or return a response),
    and the status sink (`update_status`: `status_callback` followed by
    `status_placeholder.info`), modelled by the set of messages on which
    the sink raises. -/
structure Env where
  scrape : String → Except String (Option String)
  judge : String → Except String String
  sinkRaises : String → Bool

/-- A recorded collaborator call: a fetch of a URL, or a judge call made
    while processing a URL, carrying the exact prompt sent. -/
inductive Call where
  | fetch (url : String)
  | judge (url : String) (prompt : String)
deriving DecidableEq

/-- The URL a recorded call belongs to. -/
def callUrl : Call → String
  | Call.fetch u => u
  | Call.judge u _ => u

/-- Outcome of processing one URL: early return with the final answer,
    fall through to the next URL, or an uncaught exception. -/
inductive StepRes where
  | ret (ans : String)
  | next
  | raised (e : String)
deriving DecidableEq

/-- Status message of `agent.py` line 101. -/
def attemptMsg (attempt_count : Nat) (max_attempts : Int) (url : String) : String :=
  "Attempt " ++ toString attempt_count ++ "/" ++ toString max_attempts ++ ": Trying URL: " ++ url

/-- Status message of `agent.py` line 104. -/
def scrapingMsg : String := "  ↳ Scraping content..."

/-- Status message of `agent.py` line 108. -/
def noContentMsg (url : String) : String :=
  "  ↳ ⚠️ No valid content obtained from " ++ url ++ "."

/-- Status message of `agent.py` line 111. -/
def scrapeOkMsg (n : Nat) : String :=
  "  ↳ ✅ Scraping successful (content length: " ++ toString n ++ ")."

/-- Status message of `agent.py` line 114 (scrape exception handler). -/
def scrapeErrMsg (url e : String) : String :=
  "  ↳ ❌ Error during scraping for " ++ url ++ ": " ++ e

/-- Status message of `agent.py` line 118. -/
def analyzingMsg : String := "  ↳ Analyzing content for sufficiency..."

/-- Status message of `agent.py` line 133. -/
def foundMsg (url : String) : String :=
  "  ↳ ✅ Found sufficient answer from " ++ url ++ "."

/-- Status message of `agent.py` line 138. -/
def insufficientMsg (url : String) : String :=
  "  ↳ ℹ️ Content from " ++ url ++ " deemed insufficient by AI."

/-- Status message of `agent.py` line 141 (judge exception handler). -/
def llmErrMsg (url e : String) : String :=
  "  ↳ ❌ Error during AI analysis for " ++ url ++ ": " ++ e

/-- The exhaustion message of `agent.py` line 144. -/
def failureMsg (n : Nat) : String :=
  "Could not find a sufficient answer after trying " ++ toString n ++ " URL(s)."

/-- Status message of `agent.py` line 145. -/
def finalMsg (n : Nat) : String := "🏁 " ++ failureMsg n

/-- The source attribution appended to a sufficient answer
    (`agent.py` line 135). -/
def sourceSuffix (url : String) : String := "\n\n---\n*Source: " ++ url ++ "*"

/-- The scrape exception handler (`agent.py` lines 112-115): emit the error
    notice (itself outside any try block, so a sink failure here is an
    uncaught exception) and continue with the next URL. -/
def scrapeErrStep (env : Env) (url e : String) : StepRes :=
  if env.sinkRaises (scrapeErrMsg url e) then StepRes.raised (scrapeErrMsg url e)
  else StepRes.next

/-- The judge exception handler (`agent.py` lines 139-141): emit the error
    notice (outside any try block) and continue with the next URL. -/
def llmErrStep (env : Env) (url e : String) : StepRes :=
  if env.sinkRaises (llmErrMsg url e) then StepRes.raised (llmErrMsg url e)
  else StepRes.next

/-- The analyze phase of one iteration (`agent.py` lines 117-141): the
    `update_ui` at line 118 is outside the try block; within the try block,
    the context cap is read with `getattr` from the dict
    `MAX_LLM_CONTEXT_LENGTH`, the prompt is formatted with the truncated
    text, the judge is queried and its response parsed; a sink failure at
    the lines 133 / 138 notices is caught by the same handler as a judge
    failure. -/
def judgePhase (env : Env) (query url t : String) : StepRes × List Call :=
  if env.sinkRaises analyzingMsg then (StepRes.raised analyzingMsg, [])
  else
    match getattrDictNat CHAT_MODEL 15000 with
    | none => (llmErrStep env url "TypeError: string indices must be integers", [])
    | some max_context_length =>
      let prompt := SUFFICIENCY_PROMPT_fmt query url (pyTake t max_context_length)
      match env.judge prompt with
      | Except.error e => (llmErrStep env url e, [Call.judge url prompt])
      | Except.ok llm_response =>
        let pr := parse_llm_sufficiency_response llm_response
        if pr.snd && pyTruthyOptStr pr.fst then
          if env.sinkRaises (foundMsg url) then
            (llmErrStep env url (foundMsg url), [Call.judge url prompt])
          else
            (StepRes.ret (pr.fst.getD "" ++ sourceSuffix url), [Call.judge url prompt])
        else
          if env.sinkRaises (insufficientMsg url) then
            (llmErrStep env url (insufficientMsg url), [Call.judge url prompt])
          else
            (StepRes.next, [Call.judge url prompt])

/-- The scrape phase of one iteration (`agent.py` lines 103-115): inside
    the try block, a scrape exception, a `None` result, or empty /
    whitespace-only text each lead away from the judge; a sink failure at
    the lines 108 / 111 notices is caught by the scrape handler. -/
def scrapePhase (env : Env) (query url : String) : StepRes × List Call :=
  match env.scrape url with
  | Except.error e => (scrapeErrStep env url e, [Call.fetch url])
  | Except.ok none =>
    if env.sinkRaises (noContentMsg url) then
      (scrapeErrStep env url (noContentMsg url), [Call.fetch url])
    else (StepRes.next, [Call.fetch url])
  | Except.ok (some scraped_text) =>
    if scraped_text = "" ∨ pyStrip scraped_text = "" then
      if env.sinkRaises (noContentMsg url) then
        (scrapeErrStep env url (noContentMsg url), [Call.fetch url])
      else (StepRes.next, [Call.fetch url])
    else
      if env.sinkRaises (scrapeOkMsg (pyLen scraped_text)) then
        (scrapeErrStep env url (scrapeOkMsg (pyLen scraped_text)), [Call.fetch url])
      else
        let jr := judgePhase env query url scraped_text
        (jr.fst, Call.fetch url :: jr.snd)

/-- One iteration of the loop body for a single URL (`agent.py` lines
    99-141), after the URL has been appended to `tried_urls`: the
    `update_ui` calls at lines 101 and 104 are outside any try block. -/
def step (env : Env) (query : String) (attempt_count : Nat) (max_attempts : Int)
    (url : String) : StepRes × List Call :=
  if env.sinkRaises (attemptMsg attempt_count max_attempts url) then
    (StepRes.raised (attemptMsg attempt_count max_attempts url), [])
  else if env.sinkRaises scrapingMsg then (StepRes.raised scrapingMsg, [])
  else scrapePhase env query url

/-- Python's `urls[:max_attempts]`: the slice bound as a nonnegative
    index, including the negative-index convention. -/
def sliceBound (n : Nat) (k : Int) : Nat :=
  if 0 ≤ k then k.toNat else n - (-k).toNat

/-- Python's `urls[:max_attempts]` (`agent.py` line 97). -/
def pySlice (l : List String) (k : Int) : List String := l.take (sliceBound l.length k)

/-- The loop of `agent.py` lines 99-147 over the remaining URLs, carrying
    the 1-based attempt counter and the accumulated `tried_urls`; returns
    the session result (or the uncaught exception) together with the trace
    of collaborator calls. -/
def runLoop (env : Env) (query : String) (max_attempts : Int) :
    List String → Nat → List String → Except String (String × List String) × List Call
  | [], _, tried =>
    if env.sinkRaises (finalMsg tried.length) then (Except.error (finalMsg tried.length), [])
    else (Except.ok (failureMsg tried.length, tried), [])
  | url :: rest, attempt_count, tried =>
    let s := step env query attempt_count max_attempts url
    match s.fst with
    | StepRes.raised e => (Except.error e, s.snd)
    | StepRes.ret ans => (Except.ok (ans, tried ++ [url]), s.snd)
    | StepRes.next =>
      let r := runLoop env query max_attempts rest (attempt_count + 1) (tried ++ [url])
      (r.fst, s.snd ++ r.snd)

/-- `agent.py` lines 70-147, `run_search_session`: truncate the candidate
    list to the budget, then run the loop with attempt counter 1 and empty
    `tried_urls`. -/
def run_search_session (env : Env) (query : String) (urls : List String)
    (max_attempts : Int) : Except String (String × List String) × List Call :=
  runLoop env query max_attempts (pySlice urls max_attempts) 1 []

/-- Whether a session result is a normal return (no uncaught exception). -/
def resultOk : Except String (String × List String) → Bool
  | Except.ok _ => true
  | Except.error _ => false

/-- The returned final-answer / failure string of a normal session result. -/
def answerOf : Except String (String × List String) → String
  | Except.ok (a, _) => a
  | Except.error _ => ""

/-- The returned `tried_urls` of a normal session result. -/
def triedOf : Except String (String × List String) → List String
  | Except.ok (_, t) => t
  | Except.error _ => []

/-- The uncaught exception of an abnormal session result, if any. -/
def errOf : Except String (String × List String) → Option String
  | Except.ok _ => none
  | Except.error e => some e

/-- Calls produced by a run of consecutive steps, with the attempt counter
    advancing from `a`. -/
def flatStepCalls (env : Env) (query : String) (max_attempts : Int) :
    Nat → List String → List Call
  | _, [] => []
  | a, u :: rest =>
    (step env query a max_attempts u).snd ++
      flatStepCalls env query max_attempts (a + 1) rest

/-! ## Parser facts -/

/-- Every parser result is either the insufficient verdict `(none, false)` or
    a sufficient verdict `(some a, true)` with a non-empty answer. -/
theorem parse_cases (S : String) :
    parse_llm_sufficiency_response S = (none, false) ∨
    ∃ a, a ≠ "" ∧ parse_llm_sufficiency_response S = (some a, true) := by
  unfold parse_llm_sufficiency_response
  dsimp only
  split
  · exact Or.inl rfl
  · split
    · exact Or.inl rfl
    · split
      · exact Or.inl rfl
      · next h2 =>
        right
        refine ⟨_, ?_, rfl⟩
        intro hcon
        exact h2 (by simpa using congrArg String.toList hcon)

/-- A sufficient verdict always carries a non-empty answer. -/
theorem parse_sufficient_ne_empty {S : String} {a : String}
    (h : parse_llm_sufficiency_response S = (some a, true)) : a ≠ "" := by
  rcases parse_cases S with h' | ⟨b, hb, h'⟩
  · rw [h] at h'; simp at h'
  · rw [h] at h'
    have : a = b := by simpa using h'
    simpa [this] using hb

/-! ## Session loop facts -/

/-- The `getattr` at `agent.py` line 121 returns the default 15000:
    `"gemma3:4b"` is not an attribute of a Python dict. -/
theorem getattr_cap_eq : getattrDictNat CHAT_MODEL 15000 = some 15000 := by decide

/-- If the sink does not raise on the messages emitted outside the two try
    blocks (the attempt, scrape-start, analyze-start notices and the two
    exception-handler notices), a step never ends in an uncaught
    exception. -/
theorem step_ne_raised (env : Env) (q : String) (k : Int)
    (h1 : ∀ a u, env.sinkRaises (attemptMsg a k u) = false)
    (h2 : env.sinkRaises scrapingMsg = false)
    (h3 : env.sinkRaises analyzingMsg = false)
    (h4 : ∀ u e, env.sinkRaises (scrapeErrMsg u e) = false)
    (h5 : ∀ u e, env.sinkRaises (llmErrMsg u e) = false) :
    ∀ a u e, (step env q a k u).fst ≠ StepRes.raised e := by
  intro a u e
  simp only [step, h1, h2, Bool.false_eq_true, if_false, scrapePhase]
  split
  · simp [scrapeErrStep, h4]
  · split
    · simp [scrapeErrStep, h4]
    · simp
  · split
    · split
      · simp [scrapeErrStep, h4]
      · simp
    · split
      · simp [scrapeErrStep, h4]
      · simp only [judgePhase, h3, Bool.false_eq_true, if_false, getattr_cap_eq]
        split
        · simp [llmErrStep, h5]
        · split
          · split
            · simp [llmErrStep, h5]
            · simp
          · split
            · simp [llmErrStep, h5]
            · simp

/-- Every recorded call of the analyze phase belongs to the phase's URL. -/
theorem callUrl_of_mem_judgePhase (env : Env) (q u t : String) :
    ∀ c ∈ (judgePhase env q u t).snd, callUrl c = u := by
  intro c hc
  unfold judgePhase at hc
  by_cases h3 : env.sinkRaises analyzingMsg = true
  · simp [h3] at hc
  · simp only [h3, Bool.false_eq_true, if_false, getattr_cap_eq] at hc
    cases hj : env.judge (SUFFICIENCY_PROMPT_fmt q u (pyTake t 15000)) with
    | error e => rw [hj] at hc; simp at hc; subst hc; rfl
    | ok resp =>
      rw [hj] at hc
      repeat' split at hc
      all_goals (simp at hc; subst hc; rfl)

/-- Every recorded call of the scrape phase belongs to the phase's URL. -/
theorem callUrl_of_mem_scrapePhase (env : Env) (q u : String) :
    ∀ c ∈ (scrapePhase env q u).snd, callUrl c = u := by
  intro c hc
  unfold scrapePhase at hc
  repeat' split at hc
  all_goals try simp_all [callUrl]
  all_goals
    (rcases hc with h | h
     · subst h; rfl
     · exact callUrl_of_mem_judgePhase env q u _ c h)

/-- Every recorded call of a step belongs to the step's URL. -/
theorem callUrl_of_mem_step (env : Env) (q : String) (a : Nat) (k : Int) (u : String) :
    ∀ c ∈ (step env q a k u).snd, callUrl c = u := by
  intro c hc
  unfold step at hc
  repeat' split at hc
  all_goals try simp_all
  exact callUrl_of_mem_scrapePhase env q u c hc

/-- A step whose scrape raises continues with the next URL. -/
theorem step_next_of_scrape_err (env : Env) (q : String) (a : Nat) (k : Int)
    (u e : String) (hb : ∀ m, env.sinkRaises m = false)
    (h : env.scrape u = Except.error e) :
    step env q a k u = (StepRes.next, [Call.fetch u]) := by
  simp [step, scrapePhase, h, scrapeErrStep, hb]

/-- A step whose scrape returns `None` continues with the next URL. -/
theorem step_next_of_scrape_none (env : Env) (q : String) (a : Nat) (k : Int)
    (u : String) (hb : ∀ m, env.sinkRaises m = false)
    (h : env.scrape u = Except.ok none) :
    step env q a k u = (StepRes.next, [Call.fetch u]) := by
  simp [step, scrapePhase, h, scrapeErrStep, hb]

/-- A step whose scrape returns empty or whitespace-only text continues
    with the next URL without a judge call. -/
theorem step_next_of_blank (env : Env) (q : String) (a : Nat) (k : Int)
    (u t : String) (hb : ∀ m, env.sinkRaises m = false)
    (h : env.scrape u = Except.ok (some t)) (hbl : t = "" ∨ pyStrip t = "") :
    step env q a k u = (StepRes.next, [Call.fetch u]) := by
  simp [step, scrapePhase, h, hbl, scrapeErrStep, hb]

/-- A step with a successful non-blank scrape and a successful judge call
    is decided by the parser: early return on a sufficient verdict, else
    fall through.  The judge is consulted with the text truncated to
    15000 characters, the `getattr` default. -/
theorem step_of_judged (env : Env) (q : String) (a : Nat) (k : Int)
    (u t resp : String) (hb : ∀ m, env.sinkRaises m = false)
    (h : env.scrape u = Except.ok (some t)) (hbl : ¬(t = "" ∨ pyStrip t = ""))
    (hj : env.judge (SUFFICIENCY_PROMPT_fmt q u (pyTake t 15000)) = Except.ok resp) :
    step env q a k u =
      ((if (parse_llm_sufficiency_response resp).snd &&
            pyTruthyOptStr (parse_llm_sufficiency_response resp).fst
        then StepRes.ret ((parse_llm_sufficiency_response resp).fst.getD "" ++ sourceSuffix u)
        else StepRes.next),
       [Call.fetch u, Call.judge u (SUFFICIENCY_PROMPT_fmt q u (pyTake t 15000))]) := by
  simp only [step, hb, Bool.false_eq_true, if_false, scrapePhase, h, hbl, judgePhase,
    getattr_cap_eq, hj]
  split <;> simp [hb]

/-- A step whose judge call raises continues with the next URL. -/
theorem step_next_of_judge_err (env : Env) (q : String) (a : Nat) (k : Int)
    (u t e : String) (hb : ∀ m, env.sinkRaises m = false)
    (h : env.scrape u = Except.ok (some t)) (hbl : ¬(t = "" ∨ pyStrip t = ""))
    (hj : env.judge (SUFFICIENCY_PROMPT_fmt q u (pyTake t 15000)) = Except.error e) :
    step env q a k u =
      (StepRes.next, [Call.fetch u, Call.judge u (SUFFICIENCY_PROMPT_fmt q u (pyTake t 15000))]) := by
  simp [step, hb, scrapePhase, h, hbl, judgePhase, getattr_cap_eq, hj, llmErrStep]

/-- A step whose judge response parses as sufficient returns the answer
    with the source attribution appended. -/
theorem step_ret_of_sufficient (env : Env) (q : String) (a : Nat) (k : Int)
    (u t resp A : String) (hb : ∀ m, env.sinkRaises m = false)
    (h : env.scrape u = Except.ok (some t)) (hbl : ¬(t = "" ∨ pyStrip t = ""))
    (hj : env.judge (SUFFICIENCY_PROMPT_fmt q u (pyTake t 15000)) = Except.ok resp)
    (hp : parse_llm_sufficiency_response resp = (some A, true)) :
    step env q a k u =
      (StepRes.ret (A ++ sourceSuffix u),
       [Call.fetch u, Call.judge u (SUFFICIENCY_PROMPT_fmt q u (pyTake t 15000))]) := by
  rw [step_of_judged env q a k u t resp hb h hbl hj, hp]
  have hA : A ≠ "" := parse_sufficient_ne_empty hp
  simp [pyTruthyOptStr, hA]

/-- A step whose judge response parses as insufficient continues with the
    next URL. -/
theorem step_next_of_insufficient (env : Env) (q : String) (a : Nat) (k : Int)
    (u t resp : String) (hb : ∀ m, env.sinkRaises m = false)
    (h : env.scrape u = Except.ok (some t)) (hbl : ¬(t = "" ∨ pyStrip t = ""))
    (hj : env.judge (SUFFICIENCY_PROMPT_fmt q u (pyTake t 15000)) = Except.ok resp)
    (hp : parse_llm_sufficiency_response resp = (none, false)) :
    step env q a k u =
      (StepRes.next, [Call.fetch u, Call.judge u (SUFFICIENCY_PROMPT_fmt q u (pyTake t 15000))]) := by
  rw [step_of_judged env q a k u t resp hb h hbl hj, hp]
  simp [pyTruthyOptStr]

/-- The loop skips over a run of steps that all fall through, appending
    them to `tried_urls` and recording their calls. -/
theorem runLoop_append (env : Env) (q : String) (k : Int) (l₁ l₂ : List String)
    (a : Nat) (t : List String)
    (h : ∀ j, j < l₁.length → (step env q (a + j) k (l₁.getD j "")).fst = StepRes.next) :
    runLoop env q k (l₁ ++ l₂) a t =
      ((runLoop env q k l₂ (a + l₁.length) (t ++ l₁)).fst,
       flatStepCalls env q k a l₁ ++ (runLoop env q k l₂ (a + l₁.length) (t ++ l₁)).snd) := by
  induction l₁ generalizing a t with
  | nil => simp [flatStepCalls]
  | cons u rest ih =>
    have h0 : (step env q a k u).fst = StepRes.next := by simpa using h 0 (by simp)
    have hj' : ∀ j, j < rest.length →
        (step env q (a + 1 + j) k (rest.getD j "")).fst = StepRes.next := by
      intro j hj
      have := h (j + 1) (by simpa using Nat.succ_lt_succ hj)
      simpa [List.getD_cons_succ, Nat.add_assoc, Nat.add_comm 1 j] using this
    have hrec := ih (a + 1) (t ++ [u]) hj'
    simp only [List.cons_append, runLoop, h0]
    simp only [List.append_eq]
    rw [hrec]
    simp [flatStepCalls, List.append_assoc, Nat.add_comm, Nat.add_assoc, Nat.add_left_comm]

/-- If no step raises and the sink accepts the exhaustion notice, the loop
    always returns a normal result. -/
theorem runLoop_ok (env : Env) (q : String) (k : Int) (us : List String)
    (a : Nat) (t : List String)
    (hstep : ∀ a' u e, (step env q a' k u).fst ≠ StepRes.raised e)
    (hfin : ∀ n, env.sinkRaises (finalMsg n) = false) :
    resultOk (runLoop env q k us a t).fst = true := by
  induction us generalizing a t with
  | nil => simp [runLoop, hfin, resultOk]
  | cons u rest ih =>
    simp only [runLoop]
    cases hs : (step env q a k u).fst with
    | raised e => exact absurd hs (hstep a u e)
    | ret ans => simp [resultOk]
    | next => simpa using ih (a + 1) (t ++ [u])

/-- Whenever the loop returns normally, the returned `tried_urls` extends
    the accumulator by a prefix of the remaining URLs, a non-empty prefix
    when any URL remained. -/
theorem runLoop_tried (env : Env) (q : String) (k : Int) (us : List String) :
    ∀ (a : Nat) (t : List String) (r : String) (tr : List String),
    (runLoop env q k us a t).fst = Except.ok (r, tr) →
    ∃ m, m ≤ us.length ∧ tr = t ++ us.take m ∧ (us ≠ [] → 1 ≤ m) := by
  induction us with
  | nil =>
    intro a t r tr h
    refine ⟨0, by simp, ?_, by simp⟩
    simp only [runLoop] at h
    split at h
    · simp at h
    · simp at h
      simp [h.2.symm]
  | cons u rest ih =>
    intro a t r tr h
    simp only [runLoop] at h
    split at h
    · simp at h
    · simp at h
      exact ⟨1, by simp, by simp [h.2.symm], fun _ => le_refl 1⟩
    · simp only at h
      obtain ⟨m, hm, htr, _⟩ := ih (a + 1) (t ++ [u]) r tr h
      exact ⟨m + 1, by simpa using Nat.succ_le_succ hm,
        by simp [htr, List.take_succ_cons, List.append_assoc],
        fun _ => Nat.succ_le_succ (Nat.zero_le m)⟩

/-- A normal result is an `ok` pair. -/
theorem resultOk_exists {x : Except String (String × List String)}
    (h : resultOk x = true) : ∃ r tr, x = Except.ok (r, tr) := by
  cases x with
  | ok p => exact ⟨p.1, p.2, by simp⟩
  | error e => simp [resultOk] at h

/-- For a nonnegative budget, the Python slice is a plain take. -/
theorem pySlice_nonneg (l : List String) (k : Int) (hk : 0 ≤ k) :
    pySlice l k = l.take k.toNat := by
  simp [pySlice, sliceBound, hk]

/-- For a negative budget `-m`, the Python slice drops the last `m`
    elements. -/
theorem pySlice_neg (l : List String) (m : Nat) (hm : 0 < m) :
    pySlice l (-(m : Int)) = l.take (l.length - m) := by
  have hk : ¬(0 ≤ -(m : Int)) := by omega
  simp [pySlice, sliceBound, hk]

/-- Every call recorded by a run of consecutive steps belongs to one of the
    stepped URLs. -/
theorem callUrl_of_mem_flat (env : Env) (q : String) (k : Int) :
    ∀ (us : List String) (a : Nat), ∀ c ∈ flatStepCalls env q k a us, callUrl c ∈ us := by
  intro us
  induction us with
  | nil => intro a c hc; simp [flatStepCalls] at hc
  | cons u rest ih =>
    intro a c hc
    simp only [flatStepCalls] at hc
    rcases List.mem_append.mp hc with h | h
    · rw [callUrl_of_mem_step env q a k u c h]
      exact List.mem_cons_self u rest
    · exact List.mem_cons_of_mem u (ih (a + 1) c h)

/-! ## Claims -/

/-- C6: for all input strings, the parser is total and returns exactly one
    of the two verdicts: sufficient with a non-empty answer, or
    insufficient; the first marker occurrence wins by construction of
    `strFind`. -/
theorem parser_total_two_verdicts (S : String) :
    parse_llm_sufficiency_response S = (none, false) ∨
    ∃ a, a ≠ "" ∧ parse_llm_sufficiency_response S = (some a, true) :=
  parse_cases S

/-- C7: the five concrete parser examples of the specification, all
    matching the code. -/
theorem parser_concrete_examples :
    parse_llm_sufficiency_response "Final Answer: Paris" = (some "Paris", true) ∧
    parse_llm_sufficiency_response "FINAL ANSWER:   " = (none, false) ∧
    parse_llm_sufficiency_response "Insufficient context" = (none, false) ∧
    parse_llm_sufficiency_response "insufficient context" = (none, false) ∧
    parse_llm_sufficiency_response "I think the answer is 5" = (none, false) := by
  refine ⟨by decide, by decide, by decide, by decide, by decide⟩

/-- C5 counterexample: on an input with one leading space the parser finds
    the marker in the stripped copy but slices the unstripped original, so
    the extracted answer is ": Paris", not the claimed "Paris". -/
theorem leading_whitespace_shifts_extraction :
    parse_llm_sufficiency_response " Final Answer: Paris" = (some ": Paris", true) ∧
    parse_llm_sufficiency_response " Final Answer: Paris" ≠ (some "Paris", true) := by
  refine ⟨by decide, by decide⟩

/-- Benign collaborators whose scrape yields no content, used for the C8
    theorems. -/
def dupEnv : Env :=
  { scrape := fun _ => Except.ok none,
    judge := fun _ => Except.ok "",
    sinkRaises := fun _ => false }

/-- C8 counterexample: with candidate list `["a", "a"]` both copies are
    attempted, `tried_urls` contains a duplicate and the same URL is
    fetched twice. -/
theorem duplicate_candidates_tried_twice :
    triedOf (run_search_session dupEnv "q" ["a", "a"] 2).fst = ["a", "a"] ∧
    (run_search_session dupEnv "q" ["a", "a"] 2).snd = [Call.fetch "a", Call.fetch "a"] ∧
    ¬ List.Nodup (triedOf (run_search_session dupEnv "q" ["a", "a"] 2).fst) := by
  refine ⟨rfl, rfl, by decide⟩

/-- C8 (amended): whenever a session returns normally, `tried_urls` is a
    prefix of the input candidate list in original order — so it is never
    reordered and contains no URL absent from the input — and it is free of
    duplicates whenever the input is. -/
theorem tried_urls_is_take_of_input (env : Env) (q : String) (urls : List String)
    (k : Int) (r : String) (tr : List String)
    (h : (run_search_session env q urls k).fst = Except.ok (r, tr)) :
    (∃ rest, tr ++ rest = urls) ∧ (urls.Nodup → tr.Nodup) := by
  obtain ⟨m, hm, htr, h1⟩ := runLoop_tried env q k (pySlice urls k) 1 [] r tr h
  have htr' : tr = urls.take (m ⊓ sliceBound urls.length k) := by
    simpa [pySlice, List.take_take] using htr
  constructor
  · exact ⟨urls.drop (m ⊓ sliceBound urls.length k),
      by rw [htr']; exact List.take_append_drop _ _⟩
  · intro hnd
    rw [htr']
    exact List.Nodup.sublist (List.take_sublist _ _) hnd

/-- C8 witness instance. -/
theorem tried_urls_is_take_of_input_witness :
    (∃ rest, ["x"] ++ rest = ["x", "y"]) ∧
    ((["x", "y"] : List String).Nodup → (["x"] : List String).Nodup) :=
  tried_urls_is_take_of_input dupEnv "q" ["x", "y"] 1 (failureMsg 1) ["x"] rfl

/-- A sink that raises on every message, used for the C9 counterexample. -/
def crashSinkEnv : Env :=
  { scrape := fun _ => Except.ok none,
    judge := fun _ => Except.ok "",
    sinkRaises := fun _ => true }

/-- C9 counterexample: a sink that raises at the very first status
    transition (the attempt notice, emitted outside any try block) aborts
    the session, which ends with the propagated exception instead of a
    session result. -/
theorem sink_raise_aborts_session :
    errOf (run_search_session crashSinkEnv "q" ["u"] 1).fst = some (attemptMsg 1 1 "u") ∧
    resultOk (run_search_session crashSinkEnv "q" ["u"] 1).fst = false := by
  refine ⟨rfl, rfl⟩

/-- C9 (amended): only the four notices emitted inside the two try blocks
    are protected; if the sink does not raise on the attempt, scrape-start,
    analyze-start, the two exception-handler notices and the exhaustion
    notice, the session always returns a result, whatever the sink does on
    the remaining (inside-try) notices. -/
theorem sink_raise_inside_try_contained (env : Env) (q : String) (urls : List String)
    (k : Int)
    (h1 : ∀ a u, env.sinkRaises (attemptMsg a k u) = false)
    (h2 : env.sinkRaises scrapingMsg = false)
    (h3 : env.sinkRaises analyzingMsg = false)
    (h4 : ∀ u e, env.sinkRaises (scrapeErrMsg u e) = false)
    (h5 : ∀ u e, env.sinkRaises (llmErrMsg u e) = false)
    (h6 : ∀ n, env.sinkRaises (finalMsg n) = false) :
    resultOk (run_search_session env q urls k).fst = true :=
  runLoop_ok env q k (pySlice urls k) 1 []
    (step_ne_raised env q k h1 h2 h3 h4 h5) h6

/-- C9 witness instance. -/
theorem sink_raise_inside_try_contained_witness :
    resultOk (run_search_session dupEnv "q" ["u"] 1).fst = true :=
  sink_raise_inside_try_contained dupEnv "q" ["u"] 1 (fun _ _ => rfl) rfl rfl
    (fun _ _ => rfl) (fun _ _ => rfl) (fun _ => rfl)

/-- C10: under a benign sink the session never raises for any integer
    budget; with budget 0 it performs no work and returns the exhaustion
    message for 0 URLs with empty `tried_urls`; a negative budget `-m` is
    not rejected but, through Python's negative slicing, selects the first
    `n - m` (truncated at 0) candidates. -/
theorem zero_and_negative_budget_behavior (env : Env) (q : String)
    (urls : List String) (k : Int) (m : Nat)
    (hb : ∀ msg, env.sinkRaises msg = false) (hm : 0 < m) :
    resultOk (run_search_session env q urls k).fst = true ∧
    run_search_session env q urls 0 = (Except.ok (failureMsg 0, []), []) ∧
    failureMsg 0 = "Could not find a sufficient answer after trying 0 URL(s)." ∧
    pySlice urls (-(m : Int)) = urls.take (urls.length - m) ∧
    (pySlice urls (-(m : Int))).length = urls.length - m := by
  refine ⟨?_, ?_, rfl, pySlice_neg urls m hm, ?_⟩
  · exact runLoop_ok env q k (pySlice urls k) 1 []
      (step_ne_raised env q k (fun _ _ => hb _) (hb _) (hb _) (fun _ _ => hb _)
        (fun _ _ => hb _)) (fun _ => hb _)
  · unfold run_search_session
    simp [pySlice, sliceBound, runLoop, hb]
  · rw [pySlice_neg urls m hm]
    simp [List.length_take, inf_eq_left, Nat.sub_le]

/-- C10 witness instance. -/
theorem zero_and_negative_budget_behavior_witness :
    resultOk (run_search_session dupEnv "q" ["a", "b", "c"] 2).fst = true ∧
    run_search_session dupEnv "q" ["a", "b", "c"] 0 = (Except.ok (failureMsg 0, []), []) ∧
    failureMsg 0 = "Could not find a sufficient answer after trying 0 URL(s)." ∧
    pySlice ["a", "b", "c"] (-(2 : Nat) : Int) = ["a", "b", "c"].take (["a", "b", "c"].length - 2) ∧
    (pySlice ["a", "b", "c"] (-(2 : Nat) : Int)).length = ["a", "b", "c"].length - 2 :=
  zero_and_negative_budget_behavior dupEnv "q" ["a", "b", "c"] 2 2 (fun _ => rfl) (by decide)

/-- Collaborators whose scrape always raises, used for the C2 witness. -/
def budgetEnv : Env :=
  { scrape := fun _ => Except.error "boom",
    judge := fun _ => Except.ok "",
    sinkRaises := fun _ => false }

/-- C2: with a positive budget `k`, `n` candidates and no sufficient
    verdict (every step falls through), the session visits exactly
    `min k n` URLs and returns them all in `tried_urls` — URLs whose fetch
    failed or returned no content included, since every URL of the slice is
    recorded. -/
theorem budget_cap_visits_min (env : Env) (q : String) (urls : List String) (k : Int)
    (hb : ∀ m, env.sinkRaises m = false) (hk : 0 < k)
    (hall : ∀ j, j < (pySlice urls k).length →
      (step env q (1 + j) k ((pySlice urls k).getD j "")).fst = StepRes.next) :
    (run_search_session env q urls k).fst
      = Except.ok (failureMsg (min k.toNat urls.length), urls.take k.toNat) ∧
    (urls.take k.toNat).length = min k.toNat urls.length := by
  have hs : pySlice urls k = urls.take k.toNat := pySlice_nonneg urls k (le_of_lt hk)
  have hlen : (urls.take k.toNat).length = min k.toNat urls.length := by
    simp [List.length_take]
  refine ⟨?_, hlen⟩
  unfold run_search_session
  have happ := runLoop_append env q k (pySlice urls k) [] 1 [] hall
  rw [List.append_nil] at happ
  rw [happ]
  simp [runLoop, hb, hs, hlen]

/-- C2 witness instance: two candidates whose fetches raise still fill the
    budget and appear in `tried_urls`. -/
theorem budget_cap_visits_min_witness :
    (run_search_session budgetEnv "q" ["a", "b"] 5).fst
      = Except.ok (failureMsg (min (5 : Int).toNat ["a", "b"].length),
          ["a", "b"].take (5 : Int).toNat) ∧
    ((["a", "b"] : List String).take (5 : Int).toNat).length
      = min (5 : Int).toNat (["a", "b"] : List String).length :=
  budget_cap_visits_min budgetEnv "q" ["a", "b"] 5 (fun _ => rfl) (by decide) (by decide)

/-- C1: if the session reaches the candidate at index `i = len l₁` (all
    earlier steps fell through) and the judge's response there parses as a
    sufficient verdict with answer `A`, the session immediately returns
    `A` followed by the source attribution for that URL, `tried_urls` is
    exactly the first `i + 1` candidates, and every fetch or judge call of
    the whole session belongs to those first `i + 1` candidates. -/
theorem early_exit_on_sufficient_verdict (env : Env) (q : String) (urls : List String)
    (k : Int) (l₁ l₂ : List String) (u A t resp : String)
    (hb : ∀ m, env.sinkRaises m = false)
    (hsplit : pySlice urls k = l₁ ++ u :: l₂)
    (hprev : ∀ j, j < l₁.length → (step env q (1 + j) k (l₁.getD j "")).fst = StepRes.next)
    (hscrape : env.scrape u = Except.ok (some t))
    (hbl : ¬(t = "" ∨ pyStrip t = ""))
    (hj : env.judge (SUFFICIENCY_PROMPT_fmt q u (pyTake t 15000)) = Except.ok resp)
    (hp : parse_llm_sufficiency_response resp = (some A, true)) :
    (run_search_session env q urls k).fst
      = Except.ok (A ++ sourceSuffix u, l₁ ++ [u]) ∧
    l₁ ++ [u] = urls.take (l₁.length + 1) ∧
    ∀ c ∈ (run_search_session env q urls k).snd, callUrl c ∈ l₁ ++ [u] := by
  have hstep := step_ret_of_sufficient env q (1 + l₁.length) k u t resp A hb hscrape hbl hj hp
  have happ := runLoop_append env q k l₁ (u :: l₂) 1 [] hprev
  have hrun : run_search_session env q urls k = runLoop env q k (l₁ ++ u :: l₂) 1 [] := by
    unfold run_search_session; rw [hsplit]
  have hloop : runLoop env q k (u :: l₂) (1 + l₁.length) ([] ++ l₁)
      = (Except.ok (A ++ sourceSuffix u, ([] ++ l₁) ++ [u]),
         (step env q (1 + l₁.length) k u).snd) := by
    simp only [runLoop, hstep]
  have htake : l₁ ++ [u] = urls.take (l₁.length + 1) := by
    have hs2 : urls.take (sliceBound urls.length k) = l₁ ++ u :: l₂ := hsplit
    have hlen2 : l₁.length + 1 ≤ sliceBound urls.length k := by
      have := congrArg List.length hs2
      simp [List.length_take] at this
      omega
    have h3 : urls.take (l₁.length + 1) = (l₁ ++ u :: l₂).take (l₁.length + 1) := by
      rw [← hs2, List.take_take, inf_eq_left.mpr hlen2]
    rw [h3, show l₁.length + 1 = l₁.length + 1 from rfl, List.take_append]
    simp
  refine ⟨?_, htake, ?_⟩
  · rw [hrun, happ]
    simp only [hloop]
    simp
  · intro c hc
    rw [hrun, happ] at hc
    simp only [hloop] at hc
    rcases List.mem_append.mp hc with h | h
    · exact List.mem_append_left [u] (callUrl_of_mem_flat env q k l₁ 1 c h)
    · rw [hstep] at h
      simp at h
      rcases h with h | h
      · rw [h]; exact List.mem_append_right l₁ (by simp [callUrl])
      · rw [h]; exact List.mem_append_right l₁ (by simp [callUrl])

/-- Collaborators giving a sufficient verdict on the first URL, used for
    the C1 witness. -/
def sufEnv : Env :=
  { scrape := fun _ => Except.ok (some "Paris is the capital of France."),
    judge := fun _ => Except.ok "Final Answer: Paris",
    sinkRaises := fun _ => false }

/-- C1 witness instance. -/
theorem early_exit_on_sufficient_verdict_witness :
    (run_search_session sufEnv "q" ["urlA", "urlB"] 5).fst
      = Except.ok ("Paris" ++ sourceSuffix "urlA", [] ++ ["urlA"]) ∧
    [] ++ ["urlA"] = ["urlA", "urlB"].take ((List.length ([] : List String)) + 1) ∧
    ∀ c ∈ (run_search_session sufEnv "q" ["urlA", "urlB"] 5).snd,
      callUrl c ∈ [] ++ ["urlA"] :=
  early_exit_on_sufficient_verdict sufEnv "q" ["urlA", "urlB"] 5 [] ["urlB"]
    "urlA" "Paris" "Paris is the capital of France." "Final Answer: Paris"
    (fun _ => rfl) rfl (fun j hj => absurd hj (Nat.not_lt_zero j)) rfl
    (by decide) rfl (by decide)

/-- C3: if the session reaches the candidate at index `i = len l₁` and its
    fetch raises, or its fetch succeeds and the judge call raises, the
    session neither propagates the exception nor stops: it returns a normal
    result and the candidate at index `i + 1` is still attempted
    (`tried_urls` extends past it). -/
theorem failure_isolation_continues (env : Env) (q : String) (urls : List String)
    (k : Int) (l₁ l₂ : List String) (u v e : String)
    (hb : ∀ m, env.sinkRaises m = false)
    (hsplit : pySlice urls k = l₁ ++ u :: v :: l₂)
    (hprev : ∀ j, j < l₁.length → (step env q (1 + j) k (l₁.getD j "")).fst = StepRes.next)
    (hfail : env.scrape u = Except.error e ∨
      ∃ t, env.scrape u = Except.ok (some t) ∧ ¬(t = "" ∨ pyStrip t = "") ∧
        env.judge (SUFFICIENCY_PROMPT_fmt q u (pyTake t 15000)) = Except.error e) :
    resultOk (run_search_session env q urls k).fst = true ∧
    ∃ rest, (l₁ ++ [u, v]) ++ rest = triedOf (run_search_session env q urls k).fst := by
  have hstepu : (step env q (1 + l₁.length) k u).fst = StepRes.next := by
    rcases hfail with h | ⟨t, h, hbl, hjx⟩
    · simp [step_next_of_scrape_err env q (1 + l₁.length) k u e hb h]
    · simp [step_next_of_judge_err env q (1 + l₁.length) k u t e hb h hbl hjx]
  have hprev' : ∀ j, j < (l₁ ++ [u]).length →
      (step env q (1 + j) k ((l₁ ++ [u]).getD j "")).fst = StepRes.next := by
    intro j hj
    rcases Nat.lt_or_ge j l₁.length with hlt | hge
    · rw [List.getD_append _ _ _ _ hlt]
      exact hprev j hlt
    · have hj2 : j = l₁.length := by simp at hj; omega
      subst hj2
      rw [List.getD_append_right _ _ _ _ (le_refl _)]
      simpa using hstepu
  have hsplit2 : pySlice urls k = (l₁ ++ [u]) ++ v :: l₂ := by rw [hsplit]; simp
  have happ := runLoop_append env q k (l₁ ++ [u]) (v :: l₂) 1 [] hprev'
  have hok : resultOk (runLoop env q k (v :: l₂)
      (1 + (l₁ ++ [u]).length) ([] ++ (l₁ ++ [u]))).fst = true :=
    runLoop_ok env q k (v :: l₂) _ _
      (step_ne_raised env q k (fun _ _ => hb _) (hb _) (hb _) (fun _ _ => hb _)
        (fun _ _ => hb _)) (fun _ => hb _)
  have hfst : (run_search_session env q urls k).fst
      = (runLoop env q k (v :: l₂) (1 + (l₁ ++ [u]).length) ([] ++ (l₁ ++ [u]))).fst := by
    unfold run_search_session
    rw [hsplit2, happ]
  refine ⟨by rw [hfst]; exact hok, ?_⟩
  obtain ⟨r, tr, hrt⟩ := resultOk_exists hok
  obtain ⟨m, hm, htr, hne⟩ := runLoop_tried env q k (v :: l₂) _ _ r tr hrt
  have h1m : 1 ≤ m := hne (by simp)
  obtain ⟨m', rfl⟩ : ∃ m', m = m' + 1 := ⟨m - 1, by omega⟩
  refine ⟨l₂.take m', ?_⟩
  rw [hfst, hrt]
  simp only [triedOf]
  rw [htr]
  simp [List.take_succ_cons, List.append_assoc]

/-- Collaborators whose fetch raises on "a" and judge raises on the text of
    "b", used for the C3 witness. -/
def isoEnv : Env :=
  { scrape := fun u => if u = "a" then Except.error "boom" else Except.ok (some "text"),
    judge := fun _ => Except.error "judge down",
    sinkRaises := fun _ => false }

/-- C3 witness instance. -/
theorem failure_isolation_continues_witness :
    resultOk (run_search_session isoEnv "q" ["a", "b"] 2).fst = true ∧
    ∃ rest, (([] : List String) ++ ["a", "b"]) ++ rest
      = triedOf (run_search_session isoEnv "q" ["a", "b"] 2).fst :=
  failure_isolation_continues isoEnv "q" ["a", "b"] 2 [] [] "a" "b" "boom"
    (fun _ => rfl) rfl (fun j hj => absurd hj (Nat.not_lt_zero j))
    (Or.inl rfl)

/-- C4: the `getattr` on the dict `MAX_LLM_CONTEXT_LENGTH` always yields
    the default 15000 for the configured model, so every judge call is made
    with the text truncated to 15000 characters, although the table maps
    the active model `"gemma3:4b"` to 100000. -/
theorem context_cap_getattr_code_bug (env : Env) (q url t resp : String)
    (a : Nat) (k : Int)
    (hb : ∀ m, env.sinkRaises m = false)
    (hscrape : env.scrape url = Except.ok (some t))
    (hbl : ¬(t = "" ∨ pyStrip t = ""))
    (hj : env.judge (SUFFICIENCY_PROMPT_fmt q url (pyTake t 15000)) = Except.ok resp) :
    (step env q a k url).snd
      = [Call.fetch url, Call.judge url (SUFFICIENCY_PROMPT_fmt q url (pyTake t 15000))] ∧
    getattrDictNat CHAT_MODEL 15000 = some 15000 ∧
    dictGet MAX_LLM_CONTEXT_LENGTH CHAT_MODEL = some 100000 := by
  refine ⟨?_, getattr_cap_eq, by decide⟩
  rw [step_of_judged env q a k url t resp hb hscrape hbl hj]

/-- Collaborators for the C4 witness. -/
def capEnv : Env :=
  { scrape := fun _ => Except.ok (some "Some scraped text."),
    judge := fun _ => Except.ok "Insufficient context",
    sinkRaises := fun _ => false }

/-- C4 witness instance. -/
theorem context_cap_getattr_code_bug_witness :
    (step capEnv "q" 1 5 "u").snd
      = [Call.fetch "u",
         Call.judge "u" (SUFFICIENCY_PROMPT_fmt "q" "u" (pyTake "Some scraped text." 15000))] ∧
    getattrDictNat CHAT_MODEL 15000 = some 15000 ∧
    dictGet MAX_LLM_CONTEXT_LENGTH CHAT_MODEL = some 100000 :=
  context_cap_getattr_code_bug capEnv "q" "u" "Some scraped text."
    "Insufficient context" 1 5 (fun _ => rfl) rfl (by decide) rfl

/-! ## Marker search facts, used for C5 -/

/-- The needle occurs in `l` at position `p`. -/
def occursAt (needle l : List Char) (p : Nat) : Prop :=
  ∃ t, needle ++ t = l.drop p

/-- `isPre` decides whether the needle starts the list. -/
theorem isPre_iff (n : List Char) : ∀ l, isPre n l = true ↔ ∃ t, n ++ t = l := by
  induction n with
  | nil => intro l; simp [isPre]
  | cons a nt ih =>
    intro l
    cases l with
    | nil => simp [isPre]
    | cons b lt =>
      simp only [isPre, Bool.and_eq_true, beq_iff_eq, ih]
      constructor
      · rintro ⟨hab, s, hs⟩
        exact ⟨s, by rw [List.cons_append, hs, hab]⟩
      · rintro ⟨s, hs⟩
        injection hs with h1 h2
        exact ⟨h1, s, h2⟩

/-- `strFind` returns exactly the least occurrence position. -/
theorem strFind_eq_some_iff (needle : List Char) :
    ∀ (l : List Char) (p : Nat),
    strFind needle l = some p ↔
      (occursAt needle l p ∧ ∀ q, q < p → ¬ occursAt needle l q) := by
  intro l
  induction l with
  | nil =>
    intro p
    simp only [strFind]
    by_cases h : isPre needle [] = true
    · rw [if_pos h]
      have hn : needle = [] := by
        rcases (isPre_iff needle []).mp h with ⟨t, ht⟩
        exact (List.append_eq_nil.mp ht).1
      subst hn
      constructor
      · intro hp
        injection hp with hp
        subst hp
        exact ⟨⟨[], rfl⟩, fun q hq => absurd hq (Nat.not_lt_zero q)⟩
      · rintro ⟨_, hmin⟩
        cases p with
        | zero => rfl
        | succ p' => exact absurd (hmin 0 (Nat.succ_pos p')) (by simp [occursAt])
    · rw [if_neg h]
      constructor
      · intro hcon; exact absurd hcon (by simp)
      · rintro ⟨⟨t, ht⟩, _⟩
        exfalso
        apply h
        have hnil : needle = [] := by
          have h2 : needle ++ t = [] := by simpa using ht
          exact (List.append_eq_nil.mp h2).1
        subst hnil
        rfl
  | cons c ltail ih =>
    intro p
    simp only [strFind]
    by_cases h : isPre needle (c :: ltail) = true
    · rw [if_pos h]
      have hocc0 : occursAt needle (c :: ltail) 0 := by
        rcases (isPre_iff needle (c :: ltail)).mp h with ⟨t, ht⟩
        exact ⟨t, by simpa using ht⟩
      constructor
      · intro hp
        injection hp with hp
        subst hp
        exact ⟨hocc0, fun q hq => absurd hq (Nat.not_lt_zero q)⟩
      · rintro ⟨_, hmin⟩
        cases p with
        | zero => rfl
        | succ p' => exact absurd hocc0 (hmin 0 (Nat.succ_pos p'))
    · rw [if_neg h]
      have hocc0 : ¬ occursAt needle (c :: ltail) 0 := by
        intro hcon
        apply h
        rcases hcon with ⟨t, ht⟩
        exact (isPre_iff needle (c :: ltail)).mpr ⟨t, by simpa using ht⟩
      constructor
      · intro hp
        rcases Option.map_eq_some'.mp hp with ⟨p', hp', rfl⟩
        rcases (ih p').mp hp' with ⟨hocc, hmin⟩
        refine ⟨?_, ?_⟩
        · simpa [occursAt, List.drop_succ_cons] using hocc
        · intro q hq
          cases q with
          | zero => exact hocc0
          | succ q' =>
            intro hcon
            exact hmin q' (by omega) (by simpa [occursAt, List.drop_succ_cons] using hcon)
      · rintro ⟨hocc, hmin⟩
        cases p with
        | zero => exact absurd hocc hocc0
        | succ p' =>
          have hfind : strFind needle ltail = some p' := (ih p').mpr
            ⟨by simpa [occursAt, List.drop_succ_cons] using hocc,
             fun q hq hc => hmin (q + 1) (by omega)
               (by simpa [occursAt, List.drop_succ_cons] using hc)⟩
          simp [hfind]

/-- An occurrence survives appending a suffix. -/
theorem occursAt_append_right (n l tr : List Char) (p : Nat)
    (h : occursAt n l p) : occursAt n (l ++ tr) p := by
  rcases h with ⟨s, hs⟩
  by_cases hp : p ≤ l.length
  · refine ⟨s ++ tr, ?_⟩
    rw [List.drop_append_eq_append_drop, Nat.sub_eq_zero_of_le hp, List.drop_zero,
      ← hs, List.append_assoc]
  · have hdrop : l.drop p = [] := List.drop_eq_nil_of_le (by omega)
    have hnil : n = [] := by
      have h2 : n ++ s = [] := by rw [hs, hdrop]
      exact (List.append_eq_nil.mp h2).1
    subst hnil
    exact ⟨(l ++ tr).drop p, by simp⟩

/-- An occurrence of a needle whose last character is not whitespace, in a
    list extended by an all-whitespace trail, already lies in the list. -/
theorem occursAt_of_ws_trail (n l trail : List Char) (p : Nat)
    (hlast : isPySpace (n.getLastD ' ') = false)
    (htrail : ∀ c ∈ trail, isPySpace c = true)
    (h : occursAt n (l ++ trail) p) : occursAt n l p := by
  have hn : n ≠ [] := by
    intro h0
    rw [h0] at hlast
    simp [List.getLastD] at hlast
    exact absurd hlast (by decide)
  rcases h with ⟨s, hs⟩
  rw [List.drop_append_eq_append_drop] at hs
  have hntake : n = (l.drop p ++ trail.drop (p - l.length)).take n.length := by
    rw [← hs, List.take_left]
  by_cases hlen : n.length ≤ (l.drop p).length
  · have hpre : n = (l.drop p).take n.length := by
      rw [hntake, List.take_append_eq_append_take, Nat.sub_eq_zero_of_le hlen]
      simp
    refine ⟨(l.drop p).drop n.length, ?_⟩
    nth_rewrite 1 [hpre]
    exact List.take_append_drop _ _
  · exfalso
    push_neg at hlen
    have hB : n = l.drop p ++ (trail.drop (p - l.length)).take (n.length - (l.drop p).length) := by
      nth_rewrite 1 [hntake]
      rw [List.take_append_eq_append_take, List.take_of_length_le (le_of_lt hlen)]
    have hBne : (trail.drop (p - l.length)).take (n.length - (l.drop p).length) ≠ [] := by
      intro h0
      rw [h0, List.append_nil] at hB
      have := congrArg List.length hB
      omega
    set B := (trail.drop (p - l.length)).take (n.length - (l.drop p).length) with hBdef
    have hlastmem : n.getLastD ' ' ∈ B := by
      rw [hB, List.getLastD_eq_getLast?, List.getLast?_append_of_ne_nil _ hBne,
        List.getLast?_eq_getLast_of_ne_nil hBne, Option.getD_some]
      exact List.getLast_mem hBne
    have hws : isPySpace (n.getLastD ' ') = true := by
      apply htrail
      have h1 : B ⊆ trail.drop (p - l.length) := by
        rw [hBdef]
        exact List.take_subset _ _
      exact List.drop_subset _ _ (h1 hlastmem)
    rw [hws] at hlast
    exact absurd hlast (by decide)

/-- Stripping a list with no leading whitespace splits it into the stripped
    part and an all-whitespace trail. -/
theorem strip_decomp (L : List Char) (hlead : L.takeWhile isPySpace = []) :
    L = pyStripL L ++ (L.reverse.takeWhile isPySpace).reverse ∧
    ∀ c ∈ (L.reverse.takeWhile isPySpace).reverse, isPySpace c = true := by
  have hdrop : L.dropWhile isPySpace = L := by
    conv_rhs => rw [← List.takeWhile_append_dropWhile isPySpace L]
    rw [hlead, List.nil_append]
  constructor
  · calc L = L.reverse.reverse := (List.reverse_reverse L).symm
    _ = (L.reverse.takeWhile isPySpace ++ L.reverse.dropWhile isPySpace).reverse := by
        rw [List.takeWhile_append_dropWhile]
    _ = (L.reverse.dropWhile isPySpace).reverse ++ (L.reverse.takeWhile isPySpace).reverse := by
        rw [List.reverse_append]
    _ = pyStripL L ++ (L.reverse.takeWhile isPySpace).reverse := by
        rw [pyStripL, hdrop]
  · intro c hc
    rw [List.mem_reverse] at hc
    exact List.mem_takeWhile_imp hc

/-- A character with code at least 33 is not ASCII whitespace. -/
theorem isPySpace_eq_false_of_toNat (x : Char) (h : 33 ≤ x.toNat) :
    isPySpace x = false := by
  have h1 : x ≠ ' ' := fun hh => by rw [hh] at h; exact absurd h (by decide)
  have h2 : x ≠ '\t' := fun hh => by rw [hh] at h; exact absurd h (by decide)
  have h3 : x ≠ '\n' := fun hh => by rw [hh] at h; exact absurd h (by decide)
  have h4 : x ≠ '\r' := fun hh => by rw [hh] at h; exact absurd h (by decide)
  have h5 : x ≠ '\x0b' := fun hh => by rw [hh] at h; exact absurd h (by decide)
  have h6 : x ≠ '\x0c' := fun hh => by rw [hh] at h; exact absurd h (by decide)
  simp [isPySpace, h1, h2, h3, h4, h5, h6]

/-- Lower-casing preserves whitespace-ness of a character. -/
theorem isPySpace_pyLowerChar (c : Char) : isPySpace (pyLowerChar c) = isPySpace c := by
  unfold pyLowerChar
  split
  · next h =>
    have h65 : 65 ≤ c.toNat := h.1
    have h90 : c.toNat ≤ 90 := h.2
    have hofn : (Char.ofNat (c.toNat + 32)).toNat = c.toNat + 32 := by
      have hv : (c.toNat + 32).isValidChar := Or.inl (by omega)
      rw [Char.ofNat, dif_pos hv]
      rfl
    rw [isPySpace_eq_false_of_toNat _ (by omega : 33 ≤ c.toNat),
      isPySpace_eq_false_of_toNat _ (by omega : 33 ≤ (Char.ofNat (c.toNat + 32)).toNat)]
  · rfl

/-- Lower-casing a list with no leading whitespace yields a list with no
    leading whitespace. -/
theorem takeWhile_lower_nil (l : List Char) (h : l.takeWhile isPySpace = []) :
    (pyLowerL l).takeWhile isPySpace = [] := by
  cases l with
  | nil => rfl
  | cons c t =>
    rw [List.takeWhile_cons] at h
    simp only [pyLowerL, List.map_cons, List.takeWhile_cons, isPySpace_pyLowerChar]
    by_cases hc : isPySpace c = true
    · rw [if_pos hc] at h
      exact absurd h (by simp)
    · rw [if_neg hc]

/-- The marker ends in a non-whitespace character. -/
theorem marker_last_not_ws : isPySpace (final_answer_marker.getLastD ' ') = false := by
  decide

/-- The marker does not occur in the insufficiency phrase. -/
theorem marker_not_in_insufficient :
    strFind final_answer_marker ("insufficient context".toList) = none := by
  decide

/-- The claim-side extraction: find the first case-insensitive occurrence of
    the marker in the input, then take everything after it in the
    original-cased input, trimmed. -/
def specMarkerExtract (S : String) : Option String :=
  match strFind final_answer_marker (pyLowerL S.toList) with
  | none => none
  | some p =>
    some (String.mk (pyStripL (S.toList.drop (p + final_answer_marker.length))))

/-- C5 (amended): for an input without leading whitespace whose lower-cased
    copy contains the marker first at position `p`, the parser returns
    exactly the original-cased text after that occurrence, trimmed of
    whitespace, whenever it is non-empty — agreeing with the claim-side
    extraction `specMarkerExtract`. -/
theorem marker_extraction_no_leading_whitespace (S : String) (p : Nat)
    (hlead : S.toList.takeWhile isPySpace = [])
    (hm : strFind final_answer_marker (pyLowerL S.toList) = some p)
    (hne : pyStripL (S.toList.drop (p + final_answer_marker.length)) ≠ []) :
    parse_llm_sufficiency_response S
      = (some (String.mk (pyStripL (S.toList.drop (p + final_answer_marker.length)))), true) ∧
    specMarkerExtract S
      = some (String.mk (pyStripL (S.toList.drop (p + final_answer_marker.length)))) := by
  have hleadL : (pyLowerL S.toList).takeWhile isPySpace = [] := takeWhile_lower_nil _ hlead
  obtain ⟨hdecomp, htrailws⟩ := strip_decomp (pyLowerL S.toList) hleadL
  rcases (strFind_eq_some_iff _ (pyLowerL S.toList) p).mp hm with ⟨hocc, hmin⟩
  have hoccC : occursAt final_answer_marker (pyStripL (pyLowerL S.toList)) p := by
    apply occursAt_of_ws_trail _ _ _ p marker_last_not_ws htrailws
    rw [← hdecomp]
    exact hocc
  have hminC : ∀ q, q < p → ¬ occursAt final_answer_marker (pyStripL (pyLowerL S.toList)) q := by
    intro q hq hcon
    apply hmin q hq
    rw [hdecomp]
    exact occursAt_append_right _ _ _ _ hcon
  have hfindC : strFind final_answer_marker (pyStripL (pyLowerL S.toList)) = some p :=
    (strFind_eq_some_iff _ _ p).mpr ⟨hoccC, hminC⟩
  have hCne : ¬ (pyStripL (pyLowerL S.toList) = "insufficient context".toList) := by
    intro h0
    rw [h0, marker_not_in_insufficient] at hfindC
    exact Option.noConfusion hfindC
  constructor
  · unfold parse_llm_sufficiency_response
    dsimp only
    rw [if_neg hCne, hfindC]
    dsimp only
    rw [if_neg hne]
  · unfold specMarkerExtract
    rw [hm]

/-- C5 witness instance. -/
theorem marker_extraction_no_leading_whitespace_witness :
    parse_llm_sufficiency_response "Final Answer: Paris"
      = (some (String.mk (pyStripL ("Final Answer: Paris".toList.drop
          (0 + final_answer_marker.length)))), true) ∧
    specMarkerExtract "Final Answer: Paris"
      = some (String.mk (pyStripL ("Final Answer: Paris".toList.drop
          (0 + final_answer_marker.length)))) :=
  marker_extraction_no_leading_whitespace "Final Answer: Paris" 0
    (by decide) (by decide) (by decide)

end WebMind
